import Mathlib

/-!
Verification of the HTML-extraction layer of `scrap_v2.py` (screener-scrapper).

The parsers operate on BeautifulSoup DOM trees.  We embed the DOM shallowly:
a `Node` is a text node or an element with a tag name, a list of CSS classes
(the multi-valued `class` attribute), the remaining attributes, and children.
A `Forest` is a sibling list; a parsed document is a `Forest` of top-level
nodes.  The BeautifulSoup operations used by the source
(`select_one`/`select` with the specific selectors appearing in the code,
`find_all`, `find`, `find_next_sibling`, `get_text`) are implemented as
recursive functions over this tree, and each Python parser becomes a Lean
function over `Node`/`Forest`.  Python dicts (which preserve insertion order
and overwrite values in place on re-assignment) are modelled as association
lists with an in-place-overwriting insert.
-/

mutual

inductive Node where
  | text : String → Node
  | elem : String → List String → List (String × String) → Forest → Node

inductive Forest where
  | nil : Forest
  | cons : Node → Forest → Forest

end

/-- Build a `Forest` from a list of nodes (notation convenience only). -/
def forestOf : List Node → Forest
  | [] => .nil
  | n :: ns => .cons n (forestOf ns)

/-- Element constructor taking children as a plain list. -/
def el (tag : String) (classes : List String) (attrs : List (String × String))
    (children : List Node) : Node :=
  .elem tag classes attrs (forestOf children)

/-- Text-node constructor. -/
def txt (s : String) : Node := .text s

/-! ## Python-dict model: ordered association lists -/

/-- Lookup in an association list (Python `d.get(k)` / `attrs[k]`). -/
def dictGet {α : Type} (d : List (String × α)) (k : String) : Option α :=
  match d with
  | [] => none
  | (k', v) :: rest => if k' == k then some v else dictGet rest k

/-- Python `d[k] = v`: overwrite in place if the key exists, else append. -/
def dictInsert {α : Type} (d : List (String × α)) (k : String) (v : α) :
    List (String × α) :=
  match d with
  | [] => [(k, v)]
  | (k', v') :: rest =>
      if k' == k then (k, v) :: rest else (k', v') :: dictInsert rest k v

/-- Apply a function to the value stored at key `k` (used to model mutation
through the Python alias `row_data = data[heading_text]`). -/
def dictUpdate {α : Type} (d : List (String × α)) (k : String) (f : α → α) :
    List (String × α) :=
  match d with
  | [] => []
  | (k', v) :: rest =>
      if k' == k then (k', f v) :: rest else (k', v) :: dictUpdate rest k f

/-! ## String utilities (models of the Python string operations used) -/

/-- Python `str.strip()`: drop leading and trailing whitespace. -/
def trimChars (s : String) : String :=
  String.mk (((s.data.dropWhile Char.isWhitespace).reverse.dropWhile
      Char.isWhitespace).reverse)

/-- Python string truthiness test: a string is falsy iff empty. -/
def strEmpty (s : String) : Bool := s.data.isEmpty

/-- Python `str.rstrip(":")`: drop every trailing colon. -/
def stripTrailingColons (s : String) : String :=
  String.mk ((s.data.reverse.dropWhile (fun c => c == ':')).reverse)

/-- Join a list of strings with a separator (Python `sep.join(parts)`). -/
def joinSep (sep : String) : List String → String
  | [] => ""
  | [s] => s
  | s :: rest => s ++ sep ++ joinSep sep rest

/-- Concatenate a list of strings (Python `"".join(parts)`). -/
def concatAll : List String → String
  | [] => ""
  | s :: rest => s ++ concatAll rest

/-- BeautifulSoup `stripped_strings`: strip each text fragment and drop the
ones that become empty. -/
def strippedStrings (l : List String) : List String :=
  (l.map trimChars).filter (fun s => !strEmpty s)

/-- Python `href.startswith("#")`. -/
def startsHash (s : String) : Bool :=
  match s.data with
  | '#' :: _ => true
  | _ => false

/-- Python `href.lstrip("#")`: drop every leading `#`. -/
def stripLeadingHashes (s : String) : String :=
  String.mk (s.data.dropWhile (fun c => c == '#'))

/-- Does `pat` occur as a leading segment of `cs`? -/
def listStarts : List Char → List Char → Bool
  | [], _ => true
  | _ :: _, [] => false
  | p :: ps, c :: cs => p == c && listStarts ps cs

/-- Does `pat` occur as a contiguous segment of `cs`?  Models the CSS
substring attribute selector `[style*=...]`. -/
def containsSeq (pat : List Char) : List Char → Bool
  | [] => listStarts pat []
  | c :: cs => listStarts pat (c :: cs) || containsSeq pat cs

/-- Substring containment on strings. -/
def strContains (pat s : String) : Bool := containsSeq pat.data s.data

/-! ## The company-id regular expression

`re.search(r'data-row-company-id="(\d+)"', text)` looks for the literal
`data-row-company-id="`, then one or more digits, then a closing quote, at
the leftmost possible position, and captures the digits.  Because `\d+` can
only backtrack onto further digits (never onto the closing quote), a match
exists at a position iff the literal is followed by a non-empty maximal digit
run whose next character is `"`. -/

/-- Drop a literal character sequence, or fail. -/
def dropLit : List Char → List Char → Option (List Char)
  | [], cs => some cs
  | _ :: _, [] => none
  | p :: ps, c :: cs => if p == c then dropLit ps cs else none

/-- Split a maximal leading digit run. -/
def spanDigits : List Char → List Char × List Char
  | [] => ([], [])
  | c :: cs =>
      if c.isDigit then
        let (ds, rest) := spanDigits cs
        (c :: ds, rest)
      else ([], c :: cs)

/-- The captured digits if the company-id pattern matches at this position. -/
def idMatchAt (cs : List Char) : Option String :=
  match dropLit ("data-row-company-id=\"".data) cs with
  | none => none
  | some rest =>
      let (ds, rest2) := spanDigits rest
      if ds.isEmpty then none
      else
        match rest2 with
        | '\"' :: _ => some (String.mk ds)
        | _ => none

/-- Leftmost match of the company-id pattern (`re.search`). -/
def searchId : List Char → Option String
  | [] => none
  | c :: cs =>
      match idMatchAt (c :: cs) with
      | some r => some r
      | none => searchId cs

/-- Search one style block's text for the company-id pattern. -/
def searchCompanyIdText (s : String) : Option String := searchId s.data

/-! ## DOM traversals (the BeautifulSoup operations the source uses) -/

mutual

/-- All descendant text fragments, in document order (BeautifulSoup
`strings`). -/
def Node.strings : Node → List String
  | .text s => [s]
  | .elem _ _ _ cs => Forest.strings cs

def Forest.strings : Forest → List String
  | .nil => []
  | .cons c cs => c.strings ++ cs.strings

end

/-- BeautifulSoup `get_text(sep, strip=True)`: strip every text fragment,
drop empty ones, join with `sep`. -/
def Node.get_text (sep : String) (n : Node) : String :=
  joinSep sep (strippedStrings n.strings)

/-- BeautifulSoup `.text` (no stripping): concatenation of all fragments. -/
def Node.rawText (n : Node) : String := concatAll n.strings

/-- Tag test (false on text nodes). -/
def tagIs (t : String) : Node → Bool
  | .text _ => false
  | .elem tg _ _ _ => tg == t

/-- CSS class test: the class list contains `c`. -/
def hasClass (c : String) : Node → Bool
  | .text _ => false
  | .elem _ cls _ _ => cls.contains c

/-- Compound class test: all of `cs` are present. -/
def hasClasses (cs : List String) (n : Node) : Bool := cs.all (fun c => hasClass c n)

/-- Attribute lookup (none on text nodes). -/
def Node.attr (n : Node) (name : String) : Option String :=
  match n with
  | .text _ => none
  | .elem _ _ attrs _ => dictGet attrs name

mutual

/-- All element descendants satisfying `p`, in document (pre-)order,
excluding the root itself: BeautifulSoup `find_all` / a simple-selector
`select`. -/
def Node.find_all (p : Node → Bool) : Node → List Node
  | .text _ => []
  | .elem _ _ _ cs => Forest.find_all p cs

def Forest.find_all (p : Node → Bool) : Forest → List Node
  | .nil => []
  | .cons c cs =>
      (if p c then [c] else []) ++ Node.find_all p c ++ Forest.find_all p cs

end

mutual

/-- Descendant-combinator select (`outer inner`): elements matching `pIn`
having a strict ancestor matching `pOut` inside the searched subtree (the
subtree root also counts as a possible ancestor), in document order.
`inside` records whether an ancestor matching `pOut` has been passed. -/
def Node.selUnder (pOut pIn : Node → Bool) (inside : Bool) : Node → List Node
  | .text _ => []
  | .elem t k a cs =>
      Forest.selUnder pOut pIn (inside || pOut (.elem t k a cs)) cs

def Forest.selUnder (pOut pIn : Node → Bool) (inside : Bool) : Forest → List Node
  | .nil => []
  | .cons c cs =>
      (if inside && pIn c then [c] else []) ++ Node.selUnder pOut pIn inside c
        ++ Forest.selUnder pOut pIn inside cs

end

/-- `root.select("outer inner")` on a single element. -/
def Node.selectDesc (pOut pIn : Node → Bool) (n : Node) : List Node :=
  Node.selUnder pOut pIn false n

/-- `soup.select("outer inner")` on a whole document. -/
def Forest.selectDescDoc (pOut pIn : Node → Bool) (d : Forest) : List Node :=
  Forest.selUnder pOut pIn false d

mutual

/-- Child-combinator select (`parent > child`): elements matching `pChild`
whose parent matches `pPar` (the subtree root counts as a possible parent),
in document order. -/
def Node.selChild (pPar pChild : Node → Bool) : Node → List Node
  | .text _ => []
  | .elem t k a cs => Forest.selChild pPar pChild (pPar (.elem t k a cs)) cs

def Forest.selChild (pPar pChild : Node → Bool) (parentOk : Bool) : Forest → List Node
  | .nil => []
  | .cons c cs =>
      (if parentOk && pChild c then [c] else []) ++ Node.selChild pPar pChild c
        ++ Forest.selChild pPar pChild parentOk cs

end

/-! ## The output value type

The parsers build Python dicts/lists/strings; `Val` is their common
JSON-like shape.  A dict is an insertion-ordered association list. -/

inductive Val where
  | str : String → Val
  | list : List Val → Val
  | dict : List (String × Val) → Val

/-! ## `parse_table` -/

/-- Cell texts of one row: `row.find_all(["th", "td"])`, each
`get_text(strip=True)`. -/
def rowCellTexts (row : Node) : List String :=
  (row.find_all (fun c => tagIs "th" c || tagIs "td" c)).map (Node.get_text "")

/-- Header texts: the `th` cells of the first `thead tr`. -/
def parse_table_headers (t : Node) : List String :=
  match (t.selectDesc (tagIs "thead") (tagIs "tr")).head? with
  | some header_row => (header_row.find_all (tagIs "th")).map (Node.get_text "")
  | none => []

/-- Body rows kept by `parse_table`: every `tbody tr`'s cell texts, a row
skipped when entirely blank (`any(item for item in row_data)`). -/
def parse_table_rows (t : Node) : List (List String) :=
  match (t.find_all (tagIs "tbody")).head? with
  | some body =>
      ((body.find_all (tagIs "tr")).map rowCellTexts).filter
        (fun row_data => row_data.any (fun item => !strEmpty item))
  | none => []

/-- `parse_table`: absent input gives the empty dict; otherwise a dict with
"headers" and "rows". -/
def parse_table : Option Node → Val
  | none => .dict []
  | some table_tag =>
      .dict [("headers", .list ((parse_table_headers table_tag).map .str)),
             ("rows", .list ((parse_table_rows table_tag).map
                (fun r => .list (r.map .str))))]

/-! ## `parse_summary_section` -/

/-- The "about" text: `select_one("div.about")`, `get_text(strip=True)`. -/
def summary_about_text (summary_soup : Node) : String :=
  match (summary_soup.find_all
      (fun n => tagIs "div" n && hasClass "about" n)).head? with
  | some about_tag => about_tag.get_text ""
  | none => ""

/-- The key-points text: `select_one("div.sub.commentary")`,
`get_text(" ", strip=True)`. -/
def summary_key_points_text (summary_soup : Node) : String :=
  match (summary_soup.find_all
      (fun n => tagIs "div" n && hasClasses ["sub", "commentary"] n)).head? with
  | some key_points_tag => key_points_tag.get_text " "
  | none => ""

/-- Top ratios: `select("#top-ratios > li")`, keeping entries where both a
`.name` and a `.value` descendant exist. -/
def summary_top_ratios (summary_soup : Node) : List Val :=
  (summary_soup.selChild (fun n => n.attr "id" == some "top-ratios") (tagIs "li")).filterMap
    (fun r =>
      match (r.find_all (hasClass "name")).head?,
          (r.find_all (hasClass "value")).head? with
      | some name, some val =>
          some (Val.dict [("ratio_name", .str (name.get_text "")),
                          ("ratio_value", .str (val.get_text ""))])
      | _, _ => none)

def parse_summary_section (summary_soup : Node) : Val :=
  .dict [("about", .str (summary_about_text summary_soup)),
         ("key_points", .str (summary_key_points_text summary_soup)),
         ("top_ratios", .list (summary_top_ratios summary_soup))]

/-! ## `parse_analysis_section` -/

/-- Items of `select_one("div." ++ cls ++ " ul")`, each `li`'s text. -/
def analysis_list (cls : String) (analysis_soup : Node) : List String :=
  match (analysis_soup.selectDesc (fun n => tagIs "div" n && hasClass cls n)
      (tagIs "ul")).head? with
  | some ul => (ul.find_all (tagIs "li")).map (Node.get_text "")
  | none => []

def parse_analysis_section (analysis_soup : Node) : Val :=
  .dict [("pros", .list ((analysis_list "pros" analysis_soup).map .str)),
         ("cons", .list ((analysis_list "cons" analysis_soup).map .str))]

/-! ## `parse_peers_section` -/

/-- The composite class combination that identifies the peer table. -/
def peerTableP (n : Node) : Bool :=
  tagIs "table" n && hasClasses
    ["data-table", "text-nowrap", "striped", "mark-visited", "no-scroll-right"] n

/-- Rows of a table part (`tbody`/`tfoot`): cells `find_all(["td","th"])`,
blank rows dropped. -/
def partRows (partTag : String) (table : Node) : List (List String) :=
  match (table.find_all (tagIs partTag)).head? with
  | some part =>
      ((part.find_all (tagIs "tr")).map rowCellTexts).filter
        (fun row_text => row_text.any (fun c => !strEmpty c))
  | none => []

/-- Headers of the peer table: `thead.select("tr th")`. -/
def peersHeaders (table : Node) : List String :=
  match (table.find_all (tagIs "thead")).head? with
  | some thead =>
      ((thead.selectDesc (tagIs "tr") (tagIs "th"))).map (Node.get_text "")
  | none => []

/-- The dict built from the (unique) matched peer table. -/
def peers_table_data (table : Node) : Val :=
  .dict [("headers", .list ((peersHeaders table).map .str)),
         ("rows", .list ((partRows "tbody" table).map (fun r => .list (r.map .str)))),
         ("footer", .list ((partRows "tfoot" table).map (fun r => .list (r.map .str))))]

def parse_peers_section (peers_soup : Node) : Val :=
  match (peers_soup.find_all peerTableP).head? with
  | none => .dict [("peer_comparison", .dict [("info", .str "No peer table found")])]
  | some table => .dict [("peer_comparison", peers_table_data table)]

/-! ## The `table.data-table` sections -/

def dataTableOf (s : Node) : Option Node :=
  (s.find_all (fun n => tagIs "table" n && hasClass "data-table" n)).head?

def parse_quarters_section (quarters_soup : Node) : Val :=
  .dict [("quarterly_results", parse_table (dataTableOf quarters_soup))]

def parse_profit_loss_section (pnl_soup : Node) : Val :=
  .dict [("profit_loss", parse_table (dataTableOf pnl_soup))]

def parse_balance_sheet_section (bs_soup : Node) : Val :=
  .dict [("balance_sheet", parse_table (dataTableOf bs_soup))]

def parse_cash_flow_section (cf_soup : Node) : Val :=
  .dict [("cash_flow", parse_table (dataTableOf cf_soup))]

def parse_ratios_section (ratios_soup : Node) : Val :=
  .dict [("ratios", parse_table (dataTableOf ratios_soup))]

def parse_shareholding_section (sh_soup : Node) : Val :=
  .dict [("shareholding", parse_table (dataTableOf sh_soup))]

def parse_documents_section (docs_soup : Node) : Val :=
  .dict [("documents_info", .str (docs_soup.get_text " "))]

/-! ## `parse_growth_tables`

The nested dict `data : heading → (period → value)`.  The Python loop keeps
`heading_text` (reset to `None` per table) and an alias
`row_data = data[heading_text]`; writing through the alias is modelled by
updating `data` at the current heading. -/

abbrev GDict := List (String × List (String × String))

/-- One row of a `ranges-table`: a row with a `th` starts (and, per
re-assignment, resets) its heading's sub-dict; a row with exactly two `td`s
records a period entry under the current heading, stripping trailing colons
from the label; anything else is ignored. -/
def growthStep (st : GDict × Option String) (row : Node) : GDict × Option String :=
  match (row.find_all (tagIs "th")).head? with
  | some th_el =>
      let heading_text := th_el.get_text ""
      (dictInsert st.1 heading_text [], some heading_text)
  | none =>
      match row.find_all (tagIs "td"), st.2 with
      | [td0, td1], some heading_text =>
          let label := stripTrailingColons (td0.get_text "")
          let value := td1.get_text ""
          (dictUpdate st.1 heading_text (fun m => dictInsert m label value), st.2)
      | _, _ => st

def parse_growth_tables (section_soup : Node) : GDict :=
  let tables := section_soup.find_all
      (fun n => tagIs "table" n && hasClass "ranges-table" n)
  if tables.isEmpty then []
  else
    tables.foldl
      (fun data tbl =>
        (List.foldl growthStep (data, none) (tbl.find_all (tagIs "tr"))).1)
      []

/-- Embed the growth dict into `Val` (for the orchestrator's result). -/
def gdictToVal (g : GDict) : Val :=
  .dict (g.map (fun p => (p.1, Val.dict (p.2.map (fun q => (q.1, Val.str q.2))))))

/-! ## `parse_commentary_html`

Headings are `div.strong.upper.letter-spacing` anywhere in the document, in
document order; for each, `find_next_sibling("div", class_="sub")` scans the
subsequent siblings for the first `div` carrying class `sub`. -/

def headingDivP (n : Node) : Bool :=
  tagIs "div" n && hasClasses ["strong", "upper", "letter-spacing"] n

def subDivP (n : Node) : Bool := tagIs "div" n && hasClass "sub" n

/-- First subsequent sibling that is a `div.sub`
(`find_next_sibling("div", class_="sub")`). -/
def findSubSibling : Forest → Option Node
  | .nil => none
  | .cons c cs => if subDivP c then some c else findSubSibling cs

mutual

/-- Heading/body pairs collected over a node's subtree, in document order of
the headings. -/
def Node.commPairs : Node → List (String × String)
  | .text _ => []
  | .elem _ _ _ cs => Forest.commPairs cs

def Forest.commPairs : Forest → List (String × String)
  | .nil => []
  | .cons c cs =>
      (if headingDivP c then
        match findSubSibling cs with
        | some next_sub => [(c.get_text "", next_sub.get_text " ")]
        | none => []
      else []) ++ Node.commPairs c ++ Forest.commPairs cs

end

/-- The commentary mapping: pairs folded into a dict in heading order
(later duplicate headings overwrite in place). -/
def parse_commentary_html (doc : Forest) : List (String × String) :=
  (Forest.commPairs doc).foldl (fun d p => dictInsert d p.1 p.2) []

def commentaryToVal (d : List (String × String)) : Val :=
  .dict (d.map (fun p => (p.1, Val.str p.2)))

/-! ## `parse_company_name` and the orchestrator `scrape_screener_data`

The two HTTP fetches are external collaborators: the orchestrator is
modelled over the parsed primary document (a `Forest`) and a function
giving, for a company id, the parsed commentary document
(`fetch_commentary_data` minus its transport layer). -/

def parse_company_name (soup : Forest) : String :=
  match (soup.selectDescDoc (fun n => tagIs "div" n && hasClass "company-nav" n)
      (fun n => tagIs "h1" n && hasClasses ["h2", "shrink-text"] n)).head? with
  | some name_tag => name_tag.get_text ""
  | none => "UnknownCompany"

/-- The company id: first style block (document order) whose text matches
the pattern wins (`for st in style_tags: ... break`). -/
def findStyleCompanyId (soup : Forest) : Option String :=
  companyIdLoop (soup.find_all (tagIs "style"))
where
  companyIdLoop : List Node → Option String
    | [] => none
    | st :: rest =>
        match searchCompanyIdText st.rawText with
        | some m => some m
        | none => companyIdLoop rest

/-- Python `x or dflt` on an optional string (`company_id or "N/A"`). -/
def pyOrStr (o : Option String) (dflt : String) : String :=
  match o with
  | some s => if strEmpty s then dflt else s
  | none => dflt

/-- Python truthiness of an optional string (`if company_id:`). -/
def pyTruthyOpt (o : Option String) : Bool :=
  match o with
  | some s => !strEmpty s
  | none => false

inductive ParserKind where
  | summary | analysis | peers | quarters | profitLoss | balanceSheet
  | cashFlow | ratios | shareholding | documents

def runParser : ParserKind → Node → Val
  | .summary => parse_summary_section
  | .analysis => parse_analysis_section
  | .peers => parse_peers_section
  | .quarters => parse_quarters_section
  | .profitLoss => parse_profit_loss_section
  | .balanceSheet => parse_balance_sheet_section
  | .cashFlow => parse_cash_flow_section
  | .ratios => parse_ratios_section
  | .shareholding => parse_shareholding_section
  | .documents => parse_documents_section

/-- The `parser_map` dict.  `some none` is the stored `None` for "Chart";
`none` is a missing key — both are falsy through `get(...) or get(...)`. -/
def parser_map (s : String) : Option (Option ParserKind) :=
  if s == "Summary" then some (some .summary)
  else if s == "top" then some (some .summary)
  else if s == "Chart" then some none
  else if s == "analysis" then some (some .analysis)
  else if s == "Analysis" then some (some .analysis)
  else if s == "peers" then some (some .peers)
  else if s == "Peers" then some (some .peers)
  else if s == "quarters" then some (some .quarters)
  else if s == "Quarters" then some (some .quarters)
  else if s == "profit-loss" then some (some .profitLoss)
  else if s == "Profit & Loss" then some (some .profitLoss)
  else if s == "balance-sheet" then some (some .balanceSheet)
  else if s == "Balance Sheet" then some (some .balanceSheet)
  else if s == "cash-flow" then some (some .cashFlow)
  else if s == "Cash Flow" then some (some .cashFlow)
  else if s == "ratios" then some (some .ratios)
  else if s == "Ratios" then some (some .ratios)
  else if s == "shareholding" then some (some .shareholding)
  else if s == "investors" then some (some .shareholding)
  else if s == "Investors" then some (some .shareholding)
  else if s == "documents" then some (some .documents)
  else if s == "Documents" then some (some .documents)
  else none

/-- `parser_map.get(link_label) or parser_map.get(section_id)`. -/
def parserFor (link_label section_id : String) : Option ParserKind :=
  match parser_map link_label with
  | some (some p) => some p
  | _ =>
      match parser_map section_id with
      | some (some p) => some p
      | _ => none

/-- `soup.select_one("section#id") or soup.select_one("div#id")`. -/
def section_tag_for (soup : Forest) (section_id : String) : Option Node :=
  match (soup.find_all (fun n => tagIs "section" n
      && n.attr "id" == some section_id)).head? with
  | some s => some s
  | none =>
      (soup.find_all (fun n => tagIs "div" n
        && n.attr "id" == some section_id)).head?

def infoNoParserVal : Val :=
  .dict [("info", .str "No specialized parser for this section.")]

def commentaryPlaceholder : Val :=
  .dict [("info", .str "Company ID not found, so commentary not fetched.")]

/-- One iteration of the nav-link loop. -/
def navStep (soup : Forest) (results : List (String × Val)) (link : Node) :
    List (String × Val) :=
  match link.attr "href" with
  | none => results
  | some href =>
      if !startsHash href then results
      else
        let section_id := stripLeadingHashes href
        if strEmpty section_id then results
        else
          let gt := link.get_text ""
          let link_label := if strEmpty gt then section_id else gt
          match section_tag_for soup section_id with
          | none => results
          | some section_tag =>
              match parserFor link_label section_id with
              | some parser_func =>
                  dictInsert results link_label (runParser parser_func section_tag)
              | none => dictInsert results link_label infoNoParserVal

/-- The sub-navigation holder: `select_one("div.sub-nav-holder .sub-nav")`. -/
def subNavOf (soup : Forest) : Option Node :=
  (soup.selectDescDoc (fun n => tagIs "div" n && hasClass "sub-nav-holder" n)
    (hasClass "sub-nav")).head?

/-- The result after steps 1-2 (name and id recorded). -/
def initial_results (soup : Forest) : List (String × Val) :=
  dictInsert (dictInsert [] "company_name" (.str (parse_company_name soup)))
    "company_id" (.str (pyOrStr (findStyleCompanyId soup) "N/A"))

def growthDivP (n : Node) : Bool :=
  tagIs "div" n &&
    (match n.attr "style" with
     | some st => strContains "grid-template-columns" st
     | none => false)

/-- The orchestrator, over the parsed primary page and the (externally
fetched and parsed) commentary document for a given company id. -/
def scrape_screener_data (soup : Forest) (fetch_commentary : String → Forest) :
    List (String × Val) :=
  let company_id := findStyleCompanyId soup
  let results := initial_results soup
  match subNavOf soup with
  | none => results
  | some sub_nav =>
      let nav_links := sub_nav.find_all
          (fun n => tagIs "a" n && (n.attr "href").isSome)
      let results := nav_links.foldl (navStep soup) results
      let results :=
        match (soup.find_all growthDivP).head? with
        | some growth_div =>
            dictInsert results "growth_metrics"
              (gdictToVal (parse_growth_tables growth_div))
        | none => results
      if pyTruthyOpt company_id then
        dictInsert results "commentary"
          (commentaryToVal (parse_commentary_html
            (fetch_commentary (company_id.getD ""))))
      else
        dictInsert results "commentary" commentaryPlaceholder

/-! ## Association-list lemmas -/

theorem dictGet_dictInsert_self {α : Type} (d : List (String × α)) (k : String)
    (v : α) : dictGet (dictInsert d k v) k = some v := by
  induction d with
  | nil => simp [dictInsert, dictGet]
  | cons p rest ih =>
      obtain ⟨k', v'⟩ := p
      by_cases hk : k' = k
      · simp [dictInsert, dictGet, hk]
      · simp [dictInsert, dictGet, hk, ih]

theorem dictGet_dictInsert_of_ne {α : Type} (d : List (String × α))
    (k k2 : String) (v : α) (hne : k2 ≠ k) :
    dictGet (dictInsert d k v) k2 = dictGet d k2 := by
  induction d with
  | nil => simp [dictInsert, dictGet, Ne.symm hne]
  | cons p rest ih =>
      obtain ⟨k', v'⟩ := p
      by_cases hk : k' = k
      · simp [dictInsert, dictGet, hk, Ne.symm hne]
      · simp [dictInsert, dictGet, hk, ih]

theorem dictGet_dictUpdate_self {α : Type} (d : List (String × α)) (k : String)
    (f : α → α) : dictGet (dictUpdate d k f) k = (dictGet d k).map f := by
  induction d with
  | nil => simp [dictUpdate, dictGet]
  | cons p rest ih =>
      obtain ⟨k', v'⟩ := p
      by_cases hk : k' = k
      · simp [dictUpdate, dictGet, hk]
      · simp [dictUpdate, dictGet, hk, ih]

theorem dictGet_dictUpdate_of_ne {α : Type} (d : List (String × α))
    (k k2 : String) (f : α → α) (hne : k2 ≠ k) :
    dictGet (dictUpdate d k f) k2 = dictGet d k2 := by
  induction d with
  | nil => simp [dictUpdate, dictGet]
  | cons p rest ih =>
      obtain ⟨k', v'⟩ := p
      by_cases hk : k' = k
      · simp [dictUpdate, dictGet, hk, Ne.symm hne]
      · simp [dictUpdate, dictGet, hk, ih]

/-! ## C1: `parse_table` on an absent table -/

/-- C1 counterexample: on an absent table, `parse_table` returns the empty
dict (no keys at all), not the two-key dict with empty "headers" and
"rows" that the claim states. -/
theorem c1_absent_table_counterexample :
    parse_table none ≠ Val.dict [("headers", Val.list []), ("rows", Val.list [])] := by
  intro h
  simp [parse_table] at h

/-- C1 (amended): for an absent table input, `parse_table` returns the
empty dict value (a dict with no keys) rather than failing. -/
theorem c1_absent_table_empty_dict : parse_table none = Val.dict [] := rfl

/-! ## C2: blank-row filtering in `parse_table` -/

/-- Every `tbody tr`'s cell texts, in document order, before the blank-row
filter. -/
def table_all_body_rows (t : Node) : List (List String) :=
  match (t.find_all (tagIs "tbody")).head? with
  | some body => (body.find_all (tagIs "tr")).map rowCellTexts
  | none => []

theorem any_not_empty_eq (r : List String) :
    (r.any fun item => !strEmpty item) = !(r.all fun c => strEmpty c) := by
  induction r with
  | nil => rfl
  | cons a l ih => simp [List.any_cons, List.all_cons, ih, Bool.not_and]

/-- C2: `parse_table` keeps a body row iff at least one of its (trimmed)
cells is non-empty — the kept rows are exactly the document-order body rows
with not all cells empty, and they form a sublist of (hence preserve the
relative order of) the document-order body rows. -/
theorem c2_blank_row_filter (t : Node) :
    parse_table_rows t
        = (table_all_body_rows t).filter (fun r => !(r.all fun c => strEmpty c))
      ∧ List.Sublist (parse_table_rows t) (table_all_body_rows t) := by
  have hfil : parse_table_rows t
      = (table_all_body_rows t).filter (fun r => !(r.all fun c => strEmpty c)) := by
    unfold parse_table_rows table_all_body_rows
    cases hb : (t.find_all (tagIs "tbody")).head? with
    | none => simp
    | some body => simp only [any_not_empty_eq]
  exact ⟨hfil, hfil ▸ List.filter_sublist _⟩

/-! ## Shared concrete-row helpers for example documents -/

def tdc (s : String) : Node := el "td" [] [] [txt s]

def thc (s : String) : Node := el "th" [] [] [txt s]

def tre (cells : List Node) : Node := el "tr" [] [] cells

/-! ## C3: recording discipline of `parse_growth_tables` -/

/-- A heading row: a row containing a header cell. -/
def isHeadingRow (row : Node) : Bool := !(row.find_all (tagIs "th")).isEmpty

/-- The first header cell's text of a heading row. -/
def headingCellText (row : Node) : String :=
  Node.get_text "" ((row.find_all (tagIs "th")).getD 0 (txt ""))

/-- Claim-side model of one growth-table row, following the claim's words:
a heading row activates (and initializes) its heading's mapping; a
non-heading row records a (period, value) entry exactly when it has exactly
two data cells and a heading row has already been seen, the period label
stripped of trailing colons; every other row — in particular any row before
the first heading row — is dropped. -/
def growthSpecStep (st : GDict × Option String) (row : Node) :
    GDict × Option String :=
  if isHeadingRow row then
    (dictInsert st.1 (headingCellText row) [], some (headingCellText row))
  else
    match st.2 with
    | some heading =>
        if (row.find_all (tagIs "td")).length = 2 then
          let tds := row.find_all (tagIs "td")
          (dictUpdate st.1 heading
            (fun m => dictInsert m
              (stripTrailingColons (Node.get_text "" (tds.getD 0 (txt ""))))
              (Node.get_text "" (tds.getD 1 (txt "")))), some heading)
        else st
    | none => st

/-- Claim-side model of the whole growth parser. -/
def growthSpecTables (section_soup : Node) : GDict :=
  let tables := section_soup.find_all
      (fun n => tagIs "table" n && hasClass "ranges-table" n)
  if tables.isEmpty then []
  else
    tables.foldl
      (fun data tbl =>
        (List.foldl growthSpecStep (data, none) (tbl.find_all (tagIs "tr"))).1)
      []

theorem growthStep_eq_spec (st : GDict × Option String) (row : Node) :
    growthStep st row = growthSpecStep st row := by
  obtain ⟨data, heading⟩ := st
  unfold growthStep growthSpecStep isHeadingRow headingCellText
  cases hth : row.find_all (tagIs "th") with
  | cons a l => simp
  | nil =>
      cases heading with
      | none =>
          cases htd : row.find_all (tagIs "td") with
          | nil => simp
          | cons a t =>
              cases t with
              | nil => simp
              | cons b t2 => cases t2 <;> simp
      | some hdg =>
          cases htd : row.find_all (tagIs "td") with
          | nil => simp
          | cons a t =>
              cases t with
              | nil => simp
              | cons b t2 =>
                  cases t2 with
                  | nil => simp [List.getD]
                  | cons c t3 =>
                      have hlen : t3.length + 1 + 1 + 1 ≠ 2 := by omega
                      simp [hlen]

theorem growthFold_eq_spec (rows : List Node) (st : GDict × Option String) :
    List.foldl growthStep st rows = List.foldl growthSpecStep st rows := by
  induction rows generalizing st with
  | nil => rfl
  | cons r rs ih => simp [List.foldl_cons, growthStep_eq_spec, ih]

/-- The claim's example: one group table headed "Compounded Sales Growth". -/
def c3ExampleSection : Node :=
  el "div" [] []
    [el "table" ["ranges-table"] []
      [el "tbody" [] []
        [tre [thc "Compounded Sales Growth"],
         tre [tdc "10 Years:", tdc "17%"],
         tre [tdc "5 Years:", tdc "14%"]]]]

/-- C3: `parse_growth_tables` records a (period, value) entry under the
active group heading exactly when a row has exactly two data cells and a
heading row has already been seen in that table (rows before any heading row
are dropped, trailing colons are stripped from period labels) — stated as
extensional equality with the claim-side model `growthSpecTables`, plus the
claim's concrete example. -/
theorem c3_growth_recording :
    (∀ section_soup : Node,
        parse_growth_tables section_soup = growthSpecTables section_soup)
    ∧ parse_growth_tables c3ExampleSection
        = [("Compounded Sales Growth", [("10 Years", "17%"), ("5 Years", "14%")])] := by
  constructor
  · intro sec
    unfold parse_growth_tables growthSpecTables
    simp only [growthFold_eq_spec]
  · rfl

/-! ## C4: heading/body pairing in `parse_commentary_html` -/

def Forest.toList : Forest → List Node
  | .nil => []
  | .cons c cs => c :: cs.toList

theorem findSubSibling_eq_find? : ∀ cs : Forest,
    findSubSibling cs = cs.toList.find? subDivP
  | .nil => rfl
  | .cons c cs => by
      cases h : subDivP c <;>
        simp [findSubSibling, Forest.toList, List.find?_cons, h,
          findSubSibling_eq_find? cs]

mutual

/-- Claim-side (amended) model: each heading (in document order) is paired
with the text of the first of its following siblings that is a block of the
designated body class, found with `List.find?`; a heading with no such
following sibling contributes nothing. -/
def commSpecNode : Node → List (String × String)
  | .text _ => []
  | .elem _ _ _ cs => commSpecForest cs

def commSpecForest : Forest → List (String × String)
  | .nil => []
  | .cons c cs =>
      (if headingDivP c then
        match cs.toList.find? subDivP with
        | some b => [(c.get_text "", b.get_text " ")]
        | none => []
      else []) ++ commSpecNode c ++ commSpecForest cs

end

/-- Claim-side (amended) model of the commentary parser. -/
def commentarySpec (doc : Forest) : List (String × String) :=
  (commSpecForest doc).foldl (fun d p => dictInsert d p.1 p.2) []

mutual

theorem commPairs_node_eq_spec : ∀ n : Node, Node.commPairs n = commSpecNode n
  | .text _ => rfl
  | .elem t k a cs => by
      simp only [Node.commPairs, commSpecNode, commPairs_forest_eq_spec cs]

theorem commPairs_forest_eq_spec : ∀ f : Forest, Forest.commPairs f = commSpecForest f
  | .nil => rfl
  | .cons c cs => by
      simp only [Forest.commPairs, commSpecForest, commPairs_node_eq_spec c,
        commPairs_forest_eq_spec cs, findSubSibling_eq_find?]

end

def c4heading : Node := el "div" ["strong", "upper", "letter-spacing"] [] [txt "About"]

def c4middle : Node := el "div" ["flex"] [] [txt "unrelated block"]

def c4body : Node := el "div" ["sub"] [] [txt "Kotak Mahindra Bank is a banking company."]

def c4doc : Forest := forestOf [c4heading, c4middle, c4body]

/-- C4 counterexample: a heading whose immediately following sibling is NOT
a block of the body class is still present in the output — the code pairs
the heading with the first following `div.sub`, skipping the intervening
sibling, so the claim's "immediately following sibling" reading fails. -/
theorem c4_immediate_sibling_counterexample :
    dictGet (parse_commentary_html c4doc) "About"
        = some "Kotak Mahindra Bank is a banking company."
      ∧ subDivP c4middle = false ∧ headingDivP c4heading = true :=
  ⟨rfl, rfl, rfl⟩

/-- C4 (amended): `parse_commentary_html` maps each heading to the text of
the first FOLLOWING sibling block of the designated body class (intervening
siblings of other kinds are skipped), and a heading with no following
sibling block of that class is absent from the output mapping — stated as
extensional equality with the claim-side model `commentarySpec`. -/
theorem c4_commentary_pairing :
    ∀ doc : Forest, parse_commentary_html doc = commentarySpec doc := by
  intro doc
  unfold parse_commentary_html commentarySpec
  rw [commPairs_forest_eq_spec]

/-! ## C5: peer-table disambiguation in `parse_peers_section` -/

/-- C5: the peers parser returns the "no peer table found" sentinel when no
table carries the full composite class combination, and otherwise builds its
output from the first such table alone (`peers_table_data` reads nothing
outside that table), never partial data from any other table. -/
theorem c5_peer_table_selection (sec : Node) :
    (sec.find_all peerTableP = [] →
        parse_peers_section sec
          = .dict [("peer_comparison", .dict [("info", .str "No peer table found")])])
    ∧ (∀ t, (sec.find_all peerTableP).head? = some t →
        parse_peers_section sec = .dict [("peer_comparison", peers_table_data t)]) := by
  constructor
  · intro h
    simp [parse_peers_section, h]
  · intro t ht
    simp [parse_peers_section, ht]

def benchTable : Node :=
  el "table" ["data-table"] []
    [el "tbody" [] [] [tre [tdc "BSE Sensex", tdc "82000"]]]

def c5peerTbl : Node :=
  el "table" ["data-table", "text-nowrap", "striped", "mark-visited", "no-scroll-right"] []
    [el "thead" [] [] [tre [thc "S.No.", thc "Name"]],
     el "tbody" [] [] [tre [tdc "1.", tdc "HDFC Bank"]],
     el "tfoot" [] [] [tre [tdc "", tdc "Median: 29 Co."]]]

def c5secNoPeer : Node := el "section" [] [("id", "peers")] [benchTable]

def c5secPeer : Node := el "section" [] [("id", "peers")] [benchTable, c5peerTbl]

theorem c5_witness :
    parse_peers_section c5secNoPeer
        = .dict [("peer_comparison", .dict [("info", .str "No peer table found")])]
      ∧ parse_peers_section c5secPeer
        = .dict [("peer_comparison", peers_table_data c5peerTbl)] :=
  ⟨(c5_peer_table_selection c5secNoPeer).1 rfl,
   (c5_peer_table_selection c5secPeer).2 c5peerTbl rfl⟩

/-! ## C6/C7: the orchestrator's company-id and commentary handling -/

/-- The `\d+` capture group is never empty: a successful position match
yields at least one digit. -/
theorem idMatchAt_ne_empty (cs : List Char) (r : String)
    (h : idMatchAt cs = some r) : strEmpty r = false := by
  unfold idMatchAt at h
  cases hdl : dropLit ("data-row-company-id=\"".data) cs with
  | none => rw [hdl] at h; exact Option.noConfusion h
  | some rest =>
      rw [hdl] at h
      rcases hsd : spanDigits rest with ⟨ds, rest2⟩
      simp only [hsd] at h
      by_cases hds : ds.isEmpty = true
      · rw [if_pos hds] at h; exact Option.noConfusion h
      · rw [if_neg hds] at h
        split at h
        · have hr : String.mk ds = r := by simpa using h
          have hne : ds.isEmpty = false := Bool.eq_false_iff.mpr hds
          rw [← hr]
          exact hne
        · exact Option.noConfusion h

theorem searchId_ne_empty : ∀ (cs : List Char) (r : String),
    searchId cs = some r → strEmpty r = false
  | [], r, h => by simp [searchId] at h
  | c :: cs, r, h => by
      rw [searchId] at h
      cases him : idMatchAt (c :: cs) with
      | some r2 =>
          rw [him] at h
          simp only [Option.some.injEq] at h
          exact h ▸ idMatchAt_ne_empty (c :: cs) r2 him
      | none =>
          rw [him] at h
          exact searchId_ne_empty cs r h

theorem companyIdLoop_ne_empty : ∀ (l : List Node) (r : String),
    findStyleCompanyId.companyIdLoop l = some r → strEmpty r = false
  | [], r, h => by simp [findStyleCompanyId.companyIdLoop] at h
  | st :: rest, r, h => by
      rw [findStyleCompanyId.companyIdLoop] at h
      cases hm : searchCompanyIdText st.rawText with
      | some m =>
          rw [hm] at h
          simp only [Option.some.injEq] at h
          exact h ▸ searchId_ne_empty _ m hm
      | none =>
          rw [hm] at h
          exact companyIdLoop_ne_empty rest r h

theorem findStyleCompanyId_ne_empty (doc : Forest) (cid : String)
    (h : findStyleCompanyId doc = some cid) : strEmpty cid = false :=
  companyIdLoop_ne_empty _ cid h

/-- The break-on-first-match loop over the style tags is the first-some of
the per-tag searches. -/
theorem companyIdLoop_eq_findSome (l : List Node) :
    findStyleCompanyId.companyIdLoop l
      = l.findSome? (fun st => searchCompanyIdText st.rawText) := by
  induction l with
  | nil => rfl
  | cons st rest ih =>
      cases hm : searchCompanyIdText st.rawText <;>
        simp [findStyleCompanyId.companyIdLoop, List.findSome?_cons, hm, ih]

/-- C6 (amended): the orchestrator records `company_id` as the first match
of the identifier pattern across the style blocks, in document order, with
the literal "N/A" substituted when there is no match; when there is no match
the commentary fetch is skipped (the result does not depend on the
commentary source at all) and, provided the navigation list is present, the
commentary key holds the informational placeholder; when a match exists and
the navigation list is present, the commentary parser's output is merged
under the commentary key.  (When the navigation list is absent the function
returns early and no commentary key exists at all — the uncorrected claim
fails there.) -/
theorem c6_company_id_and_commentary (doc : Forest) (f g : String → Forest) :
    findStyleCompanyId doc
        = (doc.find_all (tagIs "style")).findSome?
            (fun st => searchCompanyIdText st.rawText)
    ∧ dictGet (initial_results doc) "company_id"
        = some (.str (pyOrStr (findStyleCompanyId doc) "N/A"))
    ∧ (findStyleCompanyId doc = none →
        scrape_screener_data doc f = scrape_screener_data doc g)
    ∧ (∀ sn, findStyleCompanyId doc = none → subNavOf doc = some sn →
        dictGet (scrape_screener_data doc f) "commentary"
          = some commentaryPlaceholder)
    ∧ (∀ cid sn, findStyleCompanyId doc = some cid → subNavOf doc = some sn →
        dictGet (scrape_screener_data doc f) "commentary"
          = some (commentaryToVal (parse_commentary_html (f cid)))) := by
  refine ⟨companyIdLoop_eq_findSome _, ?_, ?_, ?_, ?_⟩
  · unfold initial_results
    rw [dictGet_dictInsert_self]
  · intro hnone
    simp [scrape_screener_data, hnone, pyTruthyOpt]
  · intro sn hnone hsn
    simp [scrape_screener_data, hnone, hsn, pyTruthyOpt, dictGet_dictInsert_self]
  · intro cid sn hcid hsn
    have hne : strEmpty cid = false := findStyleCompanyId_ne_empty doc cid hcid
    simp [scrape_screener_data, hcid, hsn, pyTruthyOpt, hne, dictGet_dictInsert_self]

/-- C6 counterexample: on a document with no style-block match AND no
navigation list, `company_id` is "N/A" and the commentary fetch is indeed
skipped, but the output has NO commentary key at all — not the
informational placeholder mapping the claim asserts for every document. -/
theorem c6_missing_nav_counterexample :
    findStyleCompanyId Forest.nil = none
      ∧ dictGet (scrape_screener_data Forest.nil (fun _ => Forest.nil)) "company_id"
          = some (.str "N/A")
      ∧ dictGet (scrape_screener_data Forest.nil (fun _ => Forest.nil)) "commentary"
          = none :=
  ⟨rfl, rfl, rfl⟩

def c6nav : Node := el "ul" ["sub-nav"] [] []

def c6docA : Forest := forestOf [el "div" ["sub-nav-holder"] [] [c6nav]]

def c6style : Node := el "style" [] []
  [txt "span[data-row-company-id=\"12345\"] .show-more-box x"]

def c6docB : Forest := forestOf [c6style, el "div" ["sub-nav-holder"] [] [c6nav]]

def c6comm : Forest := forestOf
  [el "div" ["strong", "upper", "letter-spacing"] [] [txt "About"],
   el "div" ["sub"] [] [txt "A bank."]]

theorem c6_witness :
    scrape_screener_data c6docA (fun _ => Forest.nil)
        = scrape_screener_data c6docA (fun _ => c6comm)
      ∧ dictGet (scrape_screener_data c6docA (fun _ => Forest.nil)) "commentary"
          = some commentaryPlaceholder
      ∧ dictGet (scrape_screener_data c6docB (fun _ => c6comm)) "commentary"
          = some (commentaryToVal (parse_commentary_html c6comm)) :=
  ⟨(c6_company_id_and_commentary c6docA (fun _ => Forest.nil) (fun _ => c6comm)).2.2.1 rfl,
   (c6_company_id_and_commentary c6docA (fun _ => Forest.nil) (fun _ => Forest.nil)).2.2.2.1
     c6nav rfl rfl,
   (c6_company_id_and_commentary c6docB (fun _ => c6comm) (fun _ => c6comm)).2.2.2.2
     "12345" c6nav rfl rfl⟩

/-- C7: when the navigation list is absent the orchestrator returns
immediately with exactly the company_name and company_id entries — no
section entries, no growth_metrics, no commentary — and this is an ordinary
return value, not an error. -/
theorem c7_missing_nav_early_exit (doc : Forest) (f : String → Forest)
    (h : subNavOf doc = none) :
    scrape_screener_data doc f
      = [("company_name", .str (parse_company_name doc)),
         ("company_id", .str (pyOrStr (findStyleCompanyId doc) "N/A"))] := by
  simp only [scrape_screener_data, h]
  rfl

theorem c7_witness :
    scrape_screener_data Forest.nil (fun _ => Forest.nil)
      = [("company_name", Val.str "UnknownCompany"), ("company_id", Val.str "N/A")] :=
  c7_missing_nav_early_exit Forest.nil (fun _ => Forest.nil) rfl

/-! ## C8: text extraction in `parse_summary_section` -/

/-- Claim-side (amended) model of the about text: each text fragment
trimmed, empties dropped, the remainder concatenated DIRECTLY (no
separator); an absent about element gives the empty string. -/
def aboutSpecText (summary_soup : Node) : String :=
  match (summary_soup.find_all
      (fun n => tagIs "div" n && hasClass "about" n)).head? with
  | some about_tag => concatAll (strippedStrings about_tag.strings)
  | none => ""

/-- Claim-side model of the key-points text: trimmed fragments joined with
single spaces; an absent element gives the empty string. -/
def keyPointsSpecText (summary_soup : Node) : String :=
  match (summary_soup.find_all
      (fun n => tagIs "div" n && hasClasses ["sub", "commentary"] n)).head? with
  | some key_points_tag => joinSep " " (strippedStrings key_points_tag.strings)
  | none => ""

theorem joinSep_empty_sep (l : List String) : joinSep "" l = concatAll l := by
  induction l with
  | nil => rfl
  | cons s rest ih =>
      cases rest with
      | nil => simp [joinSep, concatAll]
      | cons s2 rest2 =>
          show s ++ "" ++ joinSep "" (s2 :: rest2) = s ++ concatAll (s2 :: rest2)
          rw [String.append_empty, ih]

def c8sec : Node :=
  el "section" [] []
    [el "div" ["about"] [] [el "p" [] [] [txt " Foo "], el "p" [] [] [txt "Bar"]]]

/-- C8 counterexample: multi-node about text comes out as "FooBar" — the
trimmed fragments are concatenated with NO separator — whereas the claim's
"joined with single spaces" would give "Foo Bar". -/
theorem c8_about_join_counterexample :
    parse_summary_section c8sec
        = .dict [("about", .str "FooBar"), ("key_points", .str ""),
                 ("top_ratios", .list [])]
      ∧ "FooBar" ≠ "Foo Bar" :=
  ⟨rfl, by decide⟩

/-- C8 (amended): the summary parser trims surrounding whitespace of every
text fragment and yields empty strings for absent sub-elements, for both the
about text and the key-points text; multi-node key-points text is joined
with single spaces, but multi-node about text is concatenated directly with
no separator. -/
theorem c8_text_extraction (summary_soup : Node) :
    parse_summary_section summary_soup
      = .dict [("about", .str (aboutSpecText summary_soup)),
               ("key_points", .str (keyPointsSpecText summary_soup)),
               ("top_ratios", .list (summary_top_ratios summary_soup))] := by
  have h1 : summary_about_text summary_soup = aboutSpecText summary_soup := by
    unfold summary_about_text aboutSpecText
    cases (summary_soup.find_all
        (fun n => tagIs "div" n && hasClass "about" n)).head? with
    | none => rfl
    | some a => exact joinSep_empty_sep _
  have h2 : summary_key_points_text summary_soup = keyPointsSpecText summary_soup := by
    unfold summary_key_points_text keyPointsSpecText
    cases (summary_soup.find_all
        (fun n => tagIs "div" n && hasClasses ["sub", "commentary"] n)).head? with
    | none => rfl
    | some k => rfl
  unfold parse_summary_section
  rw [h1, h2]

/-! ## C9: determinism of the pipeline -/

/-- C9: the extraction pipeline is deterministic — over byte-identical
primary documents and identical commentary sources, the orchestrator
produces identical output mappings (same keys, same values, same order;
the embedding is a pure function, so equal inputs give equal outputs). -/
theorem c9_deterministic (d1 d2 : Forest) (f1 f2 : String → Forest)
    (hd : d1 = d2) (hf : f1 = f2) :
    scrape_screener_data d1 f1 = scrape_screener_data d2 f2 := by
  subst hd
  subst hf
  rfl

def demoCommentary : Forest := forestOf
  [el "div" ["strong", "upper", "letter-spacing"] [] [txt "About"],
   el "div" ["sub"] [] [txt "Kotak Mahindra Bank is a banking company."]]

def demoTable : Node :=
  el "table" ["data-table"] []
    [el "thead" [] [] [tre [thc "S.No.", thc "Name"]],
     el "tbody" [] [] [tre [tdc "  ", tdc ""], tre [tdc "1.", tdc "HDFC Bank"]]]

def demoPage : Forest :=
  forestOf
    [el "style" [] [] [txt ".r[data-row-company-id=\"12345\"] .x"],
     el "div" ["company-nav"] []
       [el "h1" ["h2", "shrink-text"] [] [txt "Kotak Mahindra Bank Ltd"]],
     el "div" ["sub-nav-holder"] []
       [el "ul" ["sub-nav"] []
         [el "a" [] [("href", "#balance-sheet")] [txt "Balance Sheet"]]],
     el "section" [] [("id", "balance-sheet")] [demoTable]]

theorem c9_witness :
    scrape_screener_data demoPage (fun _ => demoCommentary)
      = scrape_screener_data demoPage (fun _ => demoCommentary) :=
  c9_deterministic demoPage demoPage (fun _ => demoCommentary)
    (fun _ => demoCommentary) rfl rfl

/-! ## C10: heading re-initialization in `parse_growth_tables` -/

/-- The value recorded under a fixed heading by a growth-row fold depends
only on the rows and the active heading, never on entries the data map held
for OTHER headings: folding from two states that agree at `hdg` (and share
the active heading) agrees at `hdg`. -/
theorem growthFold_get_congr (hdg : String) :
    ∀ (rows : List Node) (d1 d2 : GDict) (a : Option String),
      dictGet d1 hdg = dictGet d2 hdg →
      dictGet (List.foldl growthStep (d1, a) rows).1 hdg
        = dictGet (List.foldl growthStep (d2, a) rows).1 hdg := by
  have key : ∀ (r : Node) (d1 d2 : GDict) (a : Option String),
      dictGet d1 hdg = dictGet d2 hdg →
      (growthSpecStep (d1, a) r).2 = (growthSpecStep (d2, a) r).2
        ∧ dictGet (growthSpecStep (d1, a) r).1 hdg
            = dictGet (growthSpecStep (d2, a) r).1 hdg := by
    intro r d1 d2 a hd
    unfold growthSpecStep
    cases hhr : isHeadingRow r with
    | true =>
        simp only [hhr, eq_self_iff_true, if_true]
        refine ⟨by trivial, ?_⟩
        by_cases hh : headingCellText r = hdg
        · rw [hh, dictGet_dictInsert_self, dictGet_dictInsert_self]
        · rw [dictGet_dictInsert_of_ne _ _ _ _ (Ne.symm hh),
            dictGet_dictInsert_of_ne _ _ _ _ (Ne.symm hh)]
          exact hd
    | false =>
        simp only [hhr, Bool.false_eq_true, if_false]
        cases a with
        | none => exact ⟨rfl, hd⟩
        | some h0 =>
            by_cases hlen : (r.find_all (tagIs "td")).length = 2
            · simp only [if_pos hlen]
              refine ⟨by trivial, ?_⟩
              by_cases hh : h0 = hdg
              · subst hh
                rw [dictGet_dictUpdate_self, dictGet_dictUpdate_self, hd]
              · rw [dictGet_dictUpdate_of_ne _ _ _ _ (Ne.symm hh),
                  dictGet_dictUpdate_of_ne _ _ _ _ (Ne.symm hh)]
                exact hd
            · simp only [if_neg hlen]
              exact ⟨by trivial, hd⟩
  intro rows
  induction rows with
  | nil =>
      intro d1 d2 a hd
      simpa using hd
  | cons r rs ih =>
      intro d1 d2 a hd
      simp only [List.foldl_cons, growthStep_eq_spec]
      obtain ⟨hsnd, hfst⟩ := key r d1 d2 a hd
      rw [← Prod.mk.eta (p := growthSpecStep (d1, a) r),
        ← Prod.mk.eta (p := growthSpecStep (d2, a) r), ← hsnd]
      exact ih (growthSpecStep (d1, a) r).1 (growthSpecStep (d2, a) r).1
        (growthSpecStep (d1, a) r).2 hfst

/-- C10: when a heading row is encountered, the growth parser re-assigns
that heading's mapping to the empty dict, so — whatever the accumulated
state from earlier rows of the same table or from earlier tables — the final
mapping recorded under that heading is determined solely by the rows that
follow this occurrence of the heading, starting from an empty mapping. -/
theorem c10_heading_reinitialization (data : GDict) (heading : Option String)
    (pre post : List Node) (row th_el : Node) (hdg : String)
    (hth : (row.find_all (tagIs "th")).head? = some th_el)
    (htx : th_el.get_text "" = hdg) :
    dictGet (List.foldl growthStep (data, heading) (pre ++ row :: post)).1 hdg
      = dictGet (List.foldl growthStep ([(hdg, [])], some hdg) post).1 hdg := by
  rw [List.foldl_append]
  simp only [List.foldl_cons]
  have hrow : ∀ s : GDict × Option String,
      growthStep s row = (dictInsert s.1 hdg [], some hdg) := by
    intro s
    unfold growthStep
    simp only [hth]
    rw [htx]
  rw [hrow]
  refine growthFold_get_congr hdg post _ _ (some hdg) ?_
  rw [dictGet_dictInsert_self]
  simp [dictGet]

def c10row : Node := tre [thc "Return on Equity"]

def c10datarow : Node := tre [tdc "5 Years:", tdc "12%"]

theorem c10_witness :
    dictGet (List.foldl growthStep
        ([("Return on Equity", [("10 Years", "15%")])], some "Return on Equity")
        ([] ++ c10row :: [c10datarow])).1 "Return on Equity"
      = dictGet (List.foldl growthStep
          ([("Return on Equity", [])], some "Return on Equity")
          [c10datarow]).1 "Return on Equity" :=
  c10_heading_reinitialization
    [("Return on Equity", [("10 Years", "15%")])] (some "Return on Equity")
    [] [c10datarow] c10row (thc "Return on Equity") "Return on Equity" rfl rfl
